import Mathlib

/-!
Verification of the routing / configuration layer of `cmd/web/server.go`
(package `web` of the adk-go repository).

The file shallowly embeds the Go source:

* `WebConfig`, `ParseArgs` — flag parsing (`src/cmd/web/server.go`, lines 35–63),
  together with faithful models of the Go standard-library pieces it calls
  (`strconv.ParseInt(s, 0, 64)`, `strconv.ParseBool`, `flag.Parse`).
* `Logger` — the request-logging middleware (lines 65–78).
* `Serve` — CORS policy construction, route mounting and the listener
  (lines 87–113), together with a model of the gorilla/mux dispatch
  semantics (`StrictSlash`, `Methods`, `PathPrefix`, `Subrouter`, `Use`,
  and the default not-found / method-not-allowed handlers) and of
  `http.StripPrefix` / `http.FileServer`.

Machine integers are embedded as `Nat`/`Int` with explicit range checks where
Go's `strconv` checks them.  Wall-clock time (the elapsed duration printed by
`Logger`) is not modelled; the log entry keeps the method and request URI and
its position in the emitted list records that it is written after the wrapped
handler returns.
-/

/-! ### Model of Go `strconv` (standard library, called by the `flag` package) -/

/-- Go `strconv`'s `lower(c) = c | ('x'-'X')`: ASCII lower-casing by setting
bit 5.  (When the bitwise result is not a valid code point `Char.ofNat`
returns the null character, which like the Go byte value is not a digit.) -/
def goLower (c : Char) : Char := Char.ofNat (c.toNat ||| 32)

/-- Digit value of a character as in Go `strconv.ParseUint`'s scan loop:
`'0'..'9'` and (case-insensitively) `'a'..'z'`. -/
def goDigitVal (c : Char) : Option Nat :=
  if '0' ≤ c ∧ c ≤ '9' then some (c.toNat - '0'.toNat)
  else if 'a' ≤ goLower c ∧ goLower c ≤ 'z' then some ((goLower c).toNat - 'a'.toNat + 10)
  else none

/-- The digit-scanning loop of Go `strconv.ParseUint` with `base0 = true`
(base given as 0): underscores are skipped but remembered, a digit not below
the base is a syntax error.  Returns the accumulated value and whether an
underscore was seen.  Overflow is checked by the caller (Go checks it per
step; the final value/error pair is the same). -/
def goScanDigits (base : Nat) : List Char → Nat → Bool → Option (Nat × Bool)
  | [], n, u => some (n, u)
  | c :: rest, n, u =>
    if c = '_' then goScanDigits base rest n true
    else
      match goDigitVal c with
      | none => none
      | some d => if base ≤ d then none else goScanDigits base rest (n * base + d) u

/-- Go `strconv.underscoreOK` scan loop.  `saw` encodes the class of the last
character: `0` = start of number (`'^'`), `1` = digit or base prefix (`'0'`),
`2` = underscore (`'_'`), `3` = anything else (`'!'`). -/
def underscoreOKLoop (hex : Bool) : Nat → List Char → Bool
  | saw, [] => saw ≠ 2
  | saw, c :: rest =>
    if ('0' ≤ c ∧ c ≤ '9') ∨ (hex ∧ 'a' ≤ goLower c ∧ goLower c ≤ 'f') then
      underscoreOKLoop hex 1 rest
    else if c = '_' then
      if saw ≠ 1 then false else underscoreOKLoop hex 2 rest
    else if saw = 2 then false
    else underscoreOKLoop hex 3 rest

/-- Go `strconv.underscoreOK`: underscores may separate digits (or follow a
base prefix) only. -/
def underscoreOK (s : List Char) : Bool :=
  let s1 := match s with
    | c :: rest => if c = '-' ∨ c = '+' then rest else s
    | [] => s
  match s1 with
  | '0' :: c :: rest =>
    if goLower c = 'b' ∨ goLower c = 'o' ∨ goLower c = 'x' then
      underscoreOKLoop (goLower c = 'x') 1 rest
    else underscoreOKLoop false 0 s1
  | _ => underscoreOKLoop false 0 s1

/-- Base detection of Go `strconv.ParseUint` when called with base 0: a
`0b`/`0o`/`0x` prefix (needing at least one further character) selects the
base, a bare leading `0` selects octal, otherwise decimal. -/
def base0Detect : List Char → Nat × List Char
  | [] => (10, [])
  | c :: rest =>
    if c = '0' then
      match rest with
      | c1 :: c2 :: rest2 =>
        if goLower c1 = 'b' then (2, c2 :: rest2)
        else if goLower c1 = 'o' then (8, c2 :: rest2)
        else if goLower c1 = 'x' then (16, c2 :: rest2)
        else (8, rest)
      | _ => (8, rest)
    else (10, c :: rest)

/-- Go `strconv.ParseUint(s, 0, 64)`.  `none` covers both syntax and range
errors (a range error from here also makes `ParseInt`, and hence the flag
`Set` method, fail). -/
def goParseUint64Base0 (s : List Char) : Option Nat :=
  match s with
  | [] => none
  | _ =>
    let bd := base0Detect s
    match goScanDigits bd.1 bd.2 0 false with
    | none => none
    | some (n, u) =>
      if u ∧ ¬ underscoreOK s then none
      else if 2 ^ 64 - 1 < n then none
      else some n

/-- Go `strconv.ParseInt(s, 0, 64)`, the parser behind `flag.Int` on a 64-bit
platform: optional sign, then `ParseUint`, then the `int64` range check.
`none` means the flag value is rejected (syntax or range error). -/
def goParseInt (s : String) : Option Int :=
  match s.data with
  | [] => none
  | c :: rest =>
    let body := if c = '+' ∨ c = '-' then rest else c :: rest
    match goParseUint64Base0 body with
    | none => none
    | some un =>
      if c = '-' then
        if 2 ^ 63 < un then none else some (-(un : Int))
      else
        if 2 ^ 63 ≤ un then none else some ((un : Int))

/-- Go `strconv.ParseBool`, the parser behind `flag.Bool`. -/
def goParseBool (s : String) : Option Bool :=
  if s = "1" ∨ s = "t" ∨ s = "T" ∨ s = "true" ∨ s = "TRUE" ∨ s = "True" then some true
  else if s = "0" ∨ s = "f" ∨ s = "F" ∨ s = "false" ∨ s = "FALSE" ∨ s = "False" then some false
  else none

/-! ### `WebConfig` and `ParseArgs` (server.go lines 35–63) -/

/-- Go struct `WebConfig`, the parameters to run a WebServer
(server.go lines 35–42).  Go `int` is embedded as `Int` (64-bit range is
enforced by `goParseInt` where the value enters from text). -/
structure WebConfig where
  LocalPort : Int
  UIDistPath : String
  FrontEndServer : String
  StartRestApi : Bool
  StartWebUI : Bool
deriving DecidableEq, Repr

/-- The command line as seen by the five flags `ParseArgs` defines: for each
flag, `none` when it is absent from the command line and `some v` when it is
given with the raw textual value `v` (a bare boolean flag `-name` carries
`"true"`).  The `flag` package's tokenisation of `os.Args` is outside this
model's boundary. -/
structure CmdLineFlags where
  port : Option String
  front_address : Option String
  start_restapi : Option String
  start_webui : Option String
  webui_path : Option String
deriving DecidableEq, Repr

/-- Value of an `Int` flag after `flag.Parse`: the default when absent,
otherwise the `strconv.ParseInt(s, 0, 64)` result (`none` = parse error). -/
def parseIntFlag : Option String → Int → Option Int
  | none, d => some d
  | some s, _ => goParseInt s

/-- Value of a `Bool` flag after `flag.Parse`. -/
def parseBoolFlag : Option String → Bool → Option Bool
  | none, d => some d
  | some s, _ => goParseBool s

/-- The flag values `ParseArgs` registers, resolved against the command line:
`none` when some provided value fails to parse (Go: the flag `Set` method
returns an error). -/
def flagResolve (a : CmdLineFlags) : Option WebConfig :=
  match parseIntFlag a.port 8080, parseBoolFlag a.start_restapi true,
        parseBoolFlag a.start_webui true with
  | some p, some ra, some wu =>
    some { LocalPort := p
           UIDistPath := a.webui_path.getD ""
           FrontEndServer := a.front_address.getD "http://localhost:8001"
           StartRestApi := ra
           StartWebUI := wu }
  | _, _, _ => none

/-- Outcome of Go `flag.Parse` on the default `CommandLine` flag set
(error handling mode `ExitOnError`): either the process exits (status 2,
after printing usage), or `Parse` returns.  `parsed` models the package's
`f.parsed` field, which `Parse` sets to `true` as its first action — so it is
`true` whenever `Parse` returns. -/
inductive FlagParseOutcome
  | exited
  | returned (parsed : Bool) (c : WebConfig)

/-- Model of stdlib `flag.Parse` as called by `ParseArgs`: sets `parsed`,
then processes the arguments; a value that fails to parse aborts the
process (`ExitOnError`). -/
def flagParse (a : CmdLineFlags) : FlagParseOutcome :=
  match flagResolve a with
  | none => .exited
  | some c => .returned true c

/-- Result of running `ParseArgs`: the process exits during `flag.Parse`
(`exitError`), the `!flag.Parsed()` branch panics (`panicked`), or a
`WebConfig` is returned. -/
inductive ParseArgsResult
  | exitError
  | panicked
  | ok (c : WebConfig)
deriving DecidableEq, Repr

/-- The function `ParseArgs` (server.go lines 44–63): defines the five flags with their
defaults, calls `flag.Parse()`, panics if `flag.Parsed()` is false, and
otherwise returns the `WebConfig` built from the parsed values. -/
def ParseArgs (a : CmdLineFlags) : ParseArgsResult :=
  match flagParse a with
  | .exited => .exitError
  | .returned parsed c => if parsed then .ok c else .panicked

/-! ### HTTP model: requests, responses, handlers, the logger -/

/-- An HTTP request as this layer sees it: the method string, the URL path
(`r.URL.Path`, used for routing) and the raw request URI (`r.RequestURI`,
printed by the logger). -/
structure Request where
  method : String
  path : String
  requestURI : String
deriving DecidableEq, Repr

/-- An HTTP response: status code, body, and (for 301 redirects issued by the
router's path cleaning) the Location header. -/
structure Response where
  status : Nat
  body : String
  location : String
deriving DecidableEq, Repr

/-- The body written by Go's `http.NotFoundHandler` (the router's default for
an unmatched request). -/
def notFoundResp : Response := ⟨404, "404 page not found\n", ""⟩

/-- gorilla/mux's default method-not-allowed handler: bare
`WriteHeader(405)`. -/
def methodNotAllowedResp : Response := ⟨405, "", ""⟩

/-- A log line as emitted by `Logger`'s `log.Printf("%s %s %s", r.Method,
r.RequestURI, time.Since(start))`; the elapsed wall-clock duration is not
modelled. -/
structure LogEntry where
  method : String
  uri : String
deriving DecidableEq, Repr

/-- What one invocation of a handler produces: the response written and the
log lines emitted (in order) while it ran. -/
structure HandlerResult where
  response : Response
  logs : List LogEntry
deriving DecidableEq, Repr

/-- Shallow `http.Handler`: a function from the request to the response
and emitted log lines. -/
def Handler := Request → HandlerResult

/-- The middleware `Logger` (server.go lines 65–78): runs the wrapped handler to completion,
then emits one log line with the request's method and URI.  The entry is
appended after the inner handler's output, recording that the emission
happens after the handler returns. -/
def Logger (inner : Handler) : Handler := fun r =>
  let res := inner r
  { response := res.response, logs := res.logs ++ [⟨r.method, r.requestURI⟩] }

/-- Abstract contents of the directory `http.Dir(c.UIDistPath)`: the file (if
any) stored under a given slash-separated relative path. -/
def FileSystem := String → Option String

/-- Model of `http.FileServer(http.Dir root)`: serve the file at the request
path inside the directory, or the standard not-found response.  (Index
rewriting and directory listings are inside this lookup's abstraction.) -/
def fileServer (fsys : FileSystem) : Handler := fun r =>
  match fsys r.path with
  | some content => ⟨⟨200, content, ""⟩, []⟩
  | none => ⟨notFoundResp, []⟩

/-- Test `pfx.data.isPrefixOf s.data`: does the string `s` start with `pfx`?  Used
for both `http.StripPrefix` and the mux `PathPrefix` matcher. -/
def strStarts (s pfx : String) : Bool := pfx.data.isPrefixOf s.data

/-- Drop a prefix of known length from a string. -/
def strDropPfx (s pfx : String) : String := ⟨s.data.drop pfx.data.length⟩

/-- Model of `http.StripPrefix(pfx, h)`: pass the request on with the prefix
removed from the path, or answer 404 if the path does not carry the prefix. -/
def stripPfx (pfx : String) (h : Handler) : Handler := fun r =>
  if strStarts r.path pfx then h { r with path := strDropPfx r.path pfx }
  else ⟨notFoundResp, []⟩

/-! ### CORS policy (rs/cors options, server.go lines 93–96) -/

/-- The fields of `cors.Options` that `Serve` sets. -/
structure CorsOptions where
  allowedOrigins : List String
  allowedMethods : List String
  allowCredentials : Bool
deriving DecidableEq, Repr

/-- The `cors.Options` value `Serve` passes to `cors.New` (server.go lines
93–96): the single configured front-end origin, the five listed methods, and
credentialed requests allowed. -/
def CorsNew (c : WebConfig) : CorsOptions :=
  { allowedOrigins := [c.FrontEndServer]
    allowedMethods := ["GET", "POST", "OPTIONS", "DELETE", "PUT"]
    allowCredentials := true }

/-- Model of the rs/cors middleware `Cors.Handler` (third-party library,
modelled at the boundary): it writes CORS headers — which are outside the
`Response` model — around the wrapped handler, emits no log lines, and does
not change which handler serves the request. -/
def corsHandler (_opts : CorsOptions) (h : Handler) : Handler := h

/-! ### gorilla/mux dispatch model

`Serve` builds `mux.NewRouter().StrictSlash(true)` with `Logger` as router
middleware and (conditionally) two routes, each of the form
`Methods(...).PathPrefix(...).Subrouter()` — inside a route the matchers run
in that order: the method matcher first, then the path prefix, then the
subrouter.  The model below follows `Route.Match` / `Router.Match` /
`Router.ServeHTTP` of gorilla/mux v1.8.1:

* the routes of a router share one `match.MatchErr` slot, threaded below as
  a boolean flag (`true` = a method mismatch stands recorded).  The slot's
  transient `ErrNotFound` value is cleared again before the next route runs
  (both by the failing route and by `Route.Match` around subrouter calls),
  so only the mismatch state crosses route boundaries;
* a failing method matcher records a mismatch locally and keeps matching;
  the local record is committed to the shared slot only when every other
  matcher of the route matches, and is dropped when one of them fails;
* a matcher that MATCHES clears a previously recorded method mismatch from
  the shared slot (the `else` branch of the v1.8.1 matcher loop) — so a
  later route whose method matcher accepts the request erases an earlier
  route's recorded mismatch even when its own path prefix then fails, and
  the request falls through to not-found rather than method-not-allowed;
* a failing path-prefix matcher ends the route, leaving the shared slot as
  it stands; a failing subrouter propagates its own mismatch state to the
  parent the same way;
* the first fully matching route wins and is wrapped in the router's
  middleware chain; middleware is applied only on a successful match with
  a clear error slot;
* if no route matches and a mismatch stands recorded, the default
  method-not-allowed handler answers, otherwise the default not-found
  handler answers — neither passes through the middleware chain;
* `Router.ServeHTTP` first cleans the path (`mux.cleanPath`) and answers
  with a 301 redirect when cleaning changes it;
* `StrictSlash(true)` is ignored for routes defined with `PathPrefix`
  (documented special case in gorilla/mux), so no trailing-slash redirect
  is ever issued by these routes. -/

/-- Outcome of matching a whole router against a request. -/
inductive MatchOutcome
  | matched (h : Handler)
  | methodMismatch
  | noMatch

/-- Is the outcome a successful match? -/
def MatchOutcome.isMatched : MatchOutcome → Bool
  | .matched _ => true
  | _ => false

/-- A route as a matcher: it reads the request and the shared mismatch flag
(was `match.MatchErr == ErrMethodMismatch` on entry) and either matches with
a handler or fails, in both cases returning the updated shared flag. -/
def RouteMatcher := Request → Bool → Option Handler × Bool

/-- Model of the loop of `Router.Match` over the route list: the first
matching route wins; every route reads and rewrites the shared mismatch
flag — later routes may clear a recorded mismatch — and the flag left when
the list is exhausted decides between 405 and 404. -/
def routerMatchList : List RouteMatcher → Request → Bool → Option Handler × Bool
  | [], _, acc => (none, acc)
  | rt :: rest, r, acc =>
    match rt r acc with
    | (some h, flag) => (some h, flag)
    | (none, acc1) => routerMatchList rest r acc1

/-- Model of `Router.Match`: run the route list and wrap a successful match
with a clear error slot in the router's middleware chain (first `Use`d
middleware outermost).  A failure maps to method-not-allowed when a mismatch
stands recorded and to not-found otherwise. -/
def muxMatch (routes : List RouteMatcher) (mws : List (Handler → Handler))
    (r : Request) : MatchOutcome :=
  match routerMatchList routes r false with
  | (some h, flag) => .matched (if flag then h else mws.foldr (fun mw k => mw k) h)
  | (none, true) => .methodMismatch
  | (none, false) => .noMatch

/-- A subrouter used as a route matcher (`Route.Subrouter`): its own routes
and middleware, run on the shared slot.  On a match with a clear slot its
middleware wraps the handler; on failure the slot (mismatch recorded or not)
propagates to the parent route, whose matcher loop clears a subrouter
`ErrNotFound` again. -/
def subrouterMatcher (routes : List RouteMatcher) (mws : List (Handler → Handler)) :
    RouteMatcher := fun r acc =>
  match routerMatchList routes r acc with
  | (some h, flag) => (some (if flag then h else mws.foldr (fun mw k => mw k) h), flag)
  | (none, flag) => (none, flag)

/-- Model of `Route.Match` (gorilla/mux v1.8.1) for a route built as
`Methods(ms).PathPrefix(pfx).Subrouter()`, matchers in that order:

* a matching method matcher clears a recorded mismatch from the shared
  slot; a failing one records a local mismatch and keeps going;
* a matching path-prefix matcher also clears a recorded mismatch (so the
  subrouter always starts on a clear slot); a failing one ends the route
  with the slot as the method matcher left it, dropping the local record;
* a failing subrouter fails the route with the subrouter's slot;
* when every matcher matched, a local method mismatch commits to the slot
  and fails the route; otherwise the route matches with the handler the
  subrouter selected (the route itself carries no handler). -/
def routeMatch (ms : List String) (pfx : String) (sub : RouteMatcher) : RouteMatcher :=
  fun r acc =>
    let acc1 := if r.method ∈ ms then false else acc
    if strStarts r.path pfx then
      match sub r false with
      | (some h, _) => if r.method ∈ ms then (some h, false) else (none, true)
      | (none, flag) => (none, flag)
    else (none, acc1)

/-- A route with only a method matcher and a registered handler
(`rUi.Methods("GET").Handler(h)` inside the subrouter: no path template, so
it sees every request the parent prefix let through).  On a match the route
succeeds with a clear slot (matcher `else`-clearing plus the success-path
clearing for routes with a handler); on failure its local mismatch commits
to the slot. -/
def methodRoute (ms : List String) (h : Handler) : RouteMatcher := fun r _ =>
  if r.method ∈ ms then (some h, false) else (none, true)

/-- Split a character list on `'/'`. -/
def splitSlashAux : List Char → List Char → List (List Char)
  | [], cur => [cur.reverse]
  | c :: rest, cur =>
    if c = '/' then cur.reverse :: splitSlashAux rest []
    else splitSlashAux rest (c :: cur)

/-- Segment-stack form of Go `path.Clean` on a rooted path: drop empty and
`"."` segments, let `".."` pop (never above the root). -/
def cleanStack : List (List Char) → List (List Char) → List (List Char)
  | stk, [] => stk.reverse
  | stk, seg :: rest =>
    if seg = [] ∨ seg = ['.'] then cleanStack stk rest
    else if seg = ['.', '.'] then cleanStack stk.tail rest
    else cleanStack (seg :: stk) rest

/-- Go `path.Clean` for a rooted path, as a character list. -/
def pathCleanRooted (cs : List Char) : List Char :=
  '/' :: List.intercalate ['/'] (cleanStack [] (splitSlashAux cs []))

/-- gorilla/mux's `cleanPath`: `path.Clean` plus restoring a trailing slash
(and mapping the empty path to `"/"`). -/
def cleanPath (p : String) : String :=
  if p = "" then "/"
  else
    let p1 := if strStarts p "/" then p else "/" ++ p
    let np : String := ⟨pathCleanRooted p1.data⟩
    if p1.data.getLast? = some '/' ∧ np ≠ "/" then np ++ "/" else np

/-- Model of `Router.ServeHTTP`: clean the path (redirecting on change), match, run
the matched-and-wrapped handler, else answer with the default
method-not-allowed / not-found handler (no middleware on those). -/
def muxServeHTTP (routes : List RouteMatcher) (mws : List (Handler → Handler))
    (r : Request) : HandlerResult :=
  if cleanPath r.path = r.path then
    match muxMatch routes mws r with
    | .matched h => h r
    | .methodMismatch => ⟨methodNotAllowedResp, []⟩
    | .noMatch => ⟨notFoundResp, []⟩
  else ⟨⟨301, "", cleanPath r.path⟩, []⟩

/-! ### `Serve` (server.go lines 87–113) -/

/-- Lift a log-free response function to a `Handler`. -/
def pureHandler (f : Request → Response) : Handler := fun r => ⟨f r, []⟩

/-- Modelled from the spec: `restapiweb.SetupRouter` (package
`cmd/restapi/web`, part of this repository but not under `src/`) registers
the API routes on the `/api/` subrouter.  Per the spec it is the "route
registration callback" that "owns all routes beneath `/api/`" and to which
matching requests are "forwarded, unmodified"; it is modelled as covering
every request the parent route lets through, answering with the abstract
response function `apiF`; as a route that matches, it leaves a clear
mismatch slot. -/
def SetupRouter (apiF : Request → Response) : List RouteMatcher :=
  [fun _ _ => (some (pureHandler apiF), false)]

/-- The `/ui/` branch handler:
`http.StripPrefix("/ui/", http.FileServer(http.Dir(c.UIDistPath)))`
(server.go line 104). -/
def uiBranchHandler (uiDisk : FileSystem) : Handler :=
  stripPfx "/ui/" (fileServer uiDisk)

/-- The `/ui/` route (server.go lines 102–105):
`rBase.Methods("GET").PathPrefix("/ui/").Subrouter()` with the file-server
handler registered for GET. -/
def uiRoute (uiDisk : FileSystem) : RouteMatcher :=
  routeMatch ["GET"] "/ui/"
    (subrouterMatcher [methodRoute ["GET"] (uiBranchHandler uiDisk)] [])

/-- The `/api/` route (server.go lines 107–110):
`rBase.Methods("GET", "POST", "DELETE", "OPTIONS").PathPrefix("/api/").Subrouter()`
with the CORS middleware `Use`d on the subrouter and the external route
registration filling it. -/
def apiRoute (c : WebConfig) (apiF : Request → Response) : RouteMatcher :=
  routeMatch ["GET", "POST", "DELETE", "OPTIONS"] "/api/"
    (subrouterMatcher (SetupRouter apiF) [corsHandler (CorsNew c)])

/-- The route list `Serve` mounts on the base router: the `/ui/` branch when
`StartWebUI`, then the `/api/` branch when `StartRestApi`. -/
def serveRoutes (c : WebConfig) (uiDisk : FileSystem) (apiF : Request → Response) :
    List RouteMatcher :=
  (if c.StartWebUI then [uiRoute uiDisk] else [])
    ++ (if c.StartRestApi then [apiRoute c apiF] else [])

/-- The match outcome of the base router built by `Serve` for a request. -/
def serveMatchOutcome (c : WebConfig) (uiDisk : FileSystem)
    (apiF : Request → Response) (r : Request) : MatchOutcome :=
  muxMatch (serveRoutes c uiDisk apiF) [Logger] r

/-- What `Serve` assembles before listening. -/
structure ServeModel where
  cors : CorsOptions
  handler : Request → HandlerResult
  listenAddr : String

/-- The function `Serve` (server.go lines 87–113): build the CORS policy from the config,
mount the enabled branches on a `StrictSlash(true)` router with `Logger` as
router-wide middleware, and serve on `":" + strconv.Itoa(c.LocalPort)`.
`uiDisk` abstracts the on-disk UI assets, `apiF` the externally registered
API handlers. -/
def Serve (c : WebConfig) (uiDisk : FileSystem) (apiF : Request → Response) :
    ServeModel :=
  { cors := CorsNew c
    handler := muxServeHTTP (serveRoutes c uiDisk apiF) [Logger]
    listenAddr := ":" ++ toString c.LocalPort }

/-- The observable startup/shutdown steps of `Serve`, in program order.  The
final two steps model `log.Fatal(http.ListenAndServe(":"+port, rBase))`
(server.go line 112): `http.ListenAndServe` returns only when the listener
fails, always with a non-nil error, and `log.Fatal` logs it and exits the
process. -/
inductive ServeStep
  | configureCors (o : CorsOptions)
  | mountUiBranch
  | mountApiBranch
  | listen (addr : String)
  | fatalLogExit (err : String)
deriving DecidableEq, Repr

/-- Straight-line trace of one run of `Serve` whose listener eventually fails
with `listenErr`. -/
def serveTrace (c : WebConfig) (listenErr : String) : List ServeStep :=
  [.configureCors (CorsNew c)]
    ++ (if c.StartWebUI then [.mountUiBranch] else [])
    ++ (if c.StartRestApi then [.mountApiBranch] else [])
    ++ [.listen (":" ++ toString c.LocalPort), .fatalLogExit listenErr]

/-- Is a trace step a listener bind? -/
def ServeStep.isListen : ServeStep → Bool
  | .listen _ => true
  | _ => false

/-! ### Decimal rendering round-trip (for the port-flag theorem) -/

/-- Leading decimal digit of a natural number. -/
def leadDigit (n : Nat) : Nat :=
  if n < 10 then n else leadDigit (n / 10)
termination_by n
decreasing_by exact Nat.div_lt_self (by omega) (by omega)

/-- Number of decimal digits of `n`, as a power of ten. -/
def decShift (n : Nat) : Nat :=
  if n < 10 then 10 else 10 * decShift (n / 10)
termination_by n
decreasing_by exact Nat.div_lt_self (by omega) (by omega)

theorem leadDigit_lt (n : Nat) : leadDigit n < 10 := by
  induction n using Nat.strong_induction_on with
  | _ n ih =>
    rw [leadDigit]
    split
    · omega
    · exact ih (n / 10) (Nat.div_lt_self (by omega) (by omega))

theorem leadDigit_pos (n : Nat) (h : 0 < n) : 0 < leadDigit n := by
  induction n using Nat.strong_induction_on with
  | _ n ih =>
    rw [leadDigit]
    split
    · omega
    · exact ih (n / 10) (Nat.div_lt_self (by omega) (by omega)) (by omega)

theorem digitChar_not_sign :
    ∀ d, d < 10 → 0 < d →
      Nat.digitChar d ≠ '0' ∧ Nat.digitChar d ≠ '+' ∧ Nat.digitChar d ≠ '-' := by
  decide

theorem goScanDigits_digitChar (d : Nat) (hd : d < 10) (rest : List Char) (a : Nat) (u : Bool) :
    goScanDigits 10 (Nat.digitChar d :: rest) a u = goScanDigits 10 rest (a * 10 + d) u := by
  interval_cases d <;> simp [goScanDigits, goDigitVal, goLower, Nat.digitChar]

/-- The head of `Nat.toDigitsCore` output is the leading decimal digit. -/
theorem toDigitsCore_head (fuel : Nat) :
    ∀ (n : Nat) (rest : List Char), n < fuel →
      ∃ t, Nat.toDigitsCore 10 fuel n rest = Nat.digitChar (leadDigit n) :: t := by
  induction fuel with
  | zero => intro n _ h; omega
  | succ f ih =>
    intro n rest hn
    simp only [Nat.toDigitsCore]
    split
    · rename_i h0
      have h10 : n < 10 := by omega
      have hld : leadDigit n = n := by rw [leadDigit]; simp [h10]
      have hmod : n % 10 = n := by omega
      exact ⟨rest, by rw [hmod, hld]⟩
    · rename_i h0
      have hge : 10 ≤ n := by
        by_contra hlt
        exact h0 (by omega)
      obtain ⟨t, ht⟩ := ih (n / 10) (Nat.digitChar (n % 10) :: rest) (by omega)
      have hld : leadDigit n = leadDigit (n / 10) := by
        rw [leadDigit]; simp [show ¬ n < 10 by omega]
      exact ⟨t, by rw [ht, hld]⟩

/-- Scanning the decimal rendering of `n` appends `n` to the accumulator. -/
theorem goScanDigits_toDigitsCore (fuel : Nat) :
    ∀ (n a : Nat) (u : Bool) (rest : List Char), n < fuel →
      goScanDigits 10 (Nat.toDigitsCore 10 fuel n rest) a u
        = goScanDigits 10 rest (a * decShift n + n) u := by
  induction fuel with
  | zero => intro n _ _ _ h; omega
  | succ f ih =>
    intro n a u rest hn
    simp only [Nat.toDigitsCore]
    split
    · rename_i h0
      have h10 : n < 10 := by omega
      have hmod : n % 10 = n := by omega
      rw [hmod, goScanDigits_digitChar n h10]
      have hds : decShift n = 10 := by rw [decShift]; simp [h10]
      rw [hds]
    · rename_i h0
      have hge : 10 ≤ n := by
        by_contra hlt
        exact h0 (by omega)
      rw [ih (n / 10) a u (Nat.digitChar (n % 10) :: rest) (by omega)]
      rw [goScanDigits_digitChar (n % 10) (by omega)]
      have hds : decShift n = 10 * decShift (n / 10) := by
        rw [decShift]; simp [show ¬ n < 10 by omega]
      rw [hds]
      congr 1
      calc (a * decShift (n / 10) + n / 10) * 10 + n % 10
          = a * (10 * decShift (n / 10)) + (10 * (n / 10) + n % 10) := by ring
        _ = a * (10 * decShift (n / 10)) + n := by rw [Nat.div_add_mod]

theorem goScanDigits_toDigits (p : Nat) :
    goScanDigits 10 (Nat.toDigits 10 p) 0 false = some (p, false) := by
  have h := goScanDigits_toDigitsCore (p + 1) p 0 false [] (by omega)
  simpa [Nat.toDigits, goScanDigits] using h

/-- Go `strconv.ParseInt(s, 0, 64)` inverts `Nat.repr` on positive numbers below
the `int64` bound (the decimal rendering has a nonzero leading digit, so the
base-prefix detection keeps base 10). -/
theorem goParseInt_repr (p : Nat) (h1 : 0 < p) (h2 : p < 2 ^ 63) :
    goParseInt (Nat.repr p) = some (p : Int) := by
  have hdata : (Nat.repr p).data = Nat.toDigits 10 p := rfl
  obtain ⟨t, ht⟩ := toDigitsCore_head (p + 1) p [] (by omega)
  have htd : Nat.toDigits 10 p = Nat.digitChar (leadDigit p) :: t := ht
  obtain ⟨hne0, hnep, hnem⟩ :=
    digitChar_not_sign (leadDigit p) (leadDigit_lt p) (leadDigit_pos p h1)
  have hscan : goScanDigits 10 (Nat.digitChar (leadDigit p) :: t) 0 false = some (p, false) := by
    rw [← htd]; exact goScanDigits_toDigits p
  have h63 : (2 : Nat) ^ 63 = 9223372036854775808 := by norm_num
  have h64 : (2 : Nat) ^ 64 - 1 = 18446744073709551615 := by norm_num
  rw [h63] at h2
  have hpu : goParseUint64Base0 (Nat.digitChar (leadDigit p) :: t) = some p := by
    simp only [goParseUint64Base0, base0Detect, hne0, if_false, ite_false, hscan]
    simp only [Bool.false_eq_true, false_and, if_false, ite_false, h64]
    rw [if_neg (show ¬ (18446744073709551615 < p) by omega)]
  rw [goParseInt, hdata, htd]
  simp only [hnep, hnem, or_self, if_false, ite_false, reduceCtorEq, hpu]
  rw [if_neg (show ¬ (2 ^ 63 ≤ p) by rw [h63]; omega)]

/-! ### Path-prefix facts used by the routing theorems -/

theorem strStarts_ui_not_api (s : String) (h : strStarts s "/ui/" = true) :
    strStarts s "/api/" = false := by
  rw [strStarts, List.isPrefixOf_iff_prefix] at h
  obtain ⟨t, ht⟩ := h
  rw [strStarts, ← ht]
  show List.isPrefixOf ['/', 'a', 'p', 'i', '/'] (['/', 'u', 'i', '/'] ++ t) = false
  simp [List.isPrefixOf]

theorem strStarts_api_not_ui (s : String) (h : strStarts s "/api/" = true) :
    strStarts s "/ui/" = false := by
  rw [strStarts, List.isPrefixOf_iff_prefix] at h
  obtain ⟨t, ht⟩ := h
  rw [strStarts, ← ht]
  show List.isPrefixOf ['/', 'u', 'i', '/'] (['/', 'a', 'p', 'i', '/'] ++ t) = false
  simp [List.isPrefixOf]

/-- Appending a trailing slash preserves a path prefix. -/
theorem strStarts_append_slash (s pfx : String) (h : strStarts s pfx = true) :
    strStarts (s ++ "/") pfx = true := by
  rw [strStarts, List.isPrefixOf_iff_prefix] at h ⊢
  obtain ⟨t, ht⟩ := h
  exact ⟨t ++ "/".data, by rw [String.data_append, ← ht, List.append_assoc]⟩

/-! ### Evaluation lemmas for the two mounted routes -/

/-- A `/ui/` request outside the prefix: the route fails; its matching method
matcher (when the method is GET) clears a recorded mismatch, otherwise the
shared flag is kept. -/
theorem uiRoute_noMatch (d : FileSystem) (r : Request) (acc : Bool)
    (h : strStarts r.path "/ui/" = false) :
    uiRoute d r acc
      = (none, if r.method ∈ (["GET"] : List String) then false else acc) := by
  simp [uiRoute, routeMatch, h]

/-- An `/api/` request outside the prefix: the route fails; its matching
method matcher (when the method is in the list) clears a recorded mismatch —
this is how a POST/DELETE/OPTIONS mismatch recorded by the `/ui/` route is
erased — otherwise the shared flag is kept. -/
theorem apiRoute_noMatch (c : WebConfig) (f : Request → Response) (r : Request) (acc : Bool)
    (h : strStarts r.path "/api/" = false) :
    apiRoute c f r acc
      = (none,
         if r.method ∈ (["GET", "POST", "DELETE", "OPTIONS"] : List String) then false
         else acc) := by
  simp [apiRoute, routeMatch, h]

theorem uiRoute_eval (d : FileSystem) (r : Request) (acc : Bool)
    (h : strStarts r.path "/ui/" = true) :
    uiRoute d r acc
      = if r.method = "GET" then (some (uiBranchHandler d), false)
        else (none, true) := by
  by_cases hm : r.method = "GET" <;>
    simp [uiRoute, routeMatch, subrouterMatcher, routerMatchList, methodRoute, h, hm]

theorem apiRoute_eval (c : WebConfig) (f : Request → Response) (r : Request) (acc : Bool)
    (h : strStarts r.path "/api/" = true) :
    apiRoute c f r acc
      = if r.method ∈ (["GET", "POST", "DELETE", "OPTIONS"] : List String) then
          (some (corsHandler (CorsNew c) (pureHandler f)), false)
        else (none, true) := by
  by_cases hm : r.method ∈ (["GET", "POST", "DELETE", "OPTIONS"] : List String) <;>
    simp [apiRoute, routeMatch, subrouterMatcher, routerMatchList, SetupRouter, h, hm]

/-- On an already-clean path the router dispatches on the match outcome. -/
theorem serveHandler_eval (c : WebConfig) (d : FileSystem) (f : Request → Response)
    (r : Request) (hclean : cleanPath r.path = r.path) :
    (Serve c d f).handler r
      = match serveMatchOutcome c d f r with
        | .matched h => h r
        | .methodMismatch => ⟨methodNotAllowedResp, []⟩
        | .noMatch => ⟨notFoundResp, []⟩ := by
  simp only [Serve, muxServeHTTP, hclean, if_true, serveMatchOutcome]

/-- The `/ui/` branch handler never writes a log line. -/
theorem uiBranchHandler_logs (d : FileSystem) (r : Request) :
    ((uiBranchHandler d) r).logs = [] := by
  simp only [uiBranchHandler, stripPfx, fileServer]
  split
  · split <;> rfl
  · rfl

/-- A successful router match comes from some route in the list, run on some
intermediate state of the shared flag. -/
theorem routerMatchList_matched (routes : List RouteMatcher) (r : Request) :
    ∀ (acc : Bool) (h : Handler) (flag : Bool),
      routerMatchList routes r acc = (some h, flag) →
      ∃ rt, rt ∈ routes ∧ ∃ acc1, rt r acc1 = (some h, flag) := by
  induction routes with
  | nil =>
    intro acc h flag hm
    simp [routerMatchList] at hm
  | cons rt rest ih =>
    intro acc h flag hm
    simp only [routerMatchList] at hm
    rcases hrt : rt r acc with ⟨oh, a1⟩
    rw [hrt] at hm
    cases oh with
    | some h0 =>
      simp only at hm
      cases hm
      exact ⟨rt, List.mem_cons_self rt rest, acc, hrt⟩
    | none =>
      simp only at hm
      obtain ⟨rt1, hmem, acc1, hrt1⟩ := ih a1 h flag hm
      exact ⟨rt1, List.mem_cons_of_mem rt hmem, acc1, hrt1⟩

/-- If the `/ui/` route matches, the matched handler is the file-server
branch handler, and the shared flag is left clear. -/
theorem uiRoute_matched_inv (d : FileSystem) (r : Request) (acc : Bool) (h : Handler)
    (flag : Bool) (hm : uiRoute d r acc = (some h, flag)) :
    h = uiBranchHandler d ∧ flag = false := by
  by_cases hp : strStarts r.path "/ui/" = true
  · rw [uiRoute_eval d r acc hp] at hm
    split at hm
    · cases hm
      exact ⟨rfl, rfl⟩
    · cases hm
  · rw [uiRoute_noMatch d r acc (by simpa using hp)] at hm
    cases hm

/-- If the `/api/` route matches, the matched handler is the CORS-wrapped
API handler, and the shared flag is left clear. -/
theorem apiRoute_matched_inv (c : WebConfig) (f : Request → Response) (r : Request)
    (acc : Bool) (h : Handler) (flag : Bool)
    (hm : apiRoute c f r acc = (some h, flag)) :
    h = corsHandler (CorsNew c) (pureHandler f) ∧ flag = false := by
  by_cases hp : strStarts r.path "/api/" = true
  · rw [apiRoute_eval c f r acc hp] at hm
    split at hm
    · cases hm
      exact ⟨rfl, rfl⟩
    · cases hm
  · rw [apiRoute_noMatch c f r acc (by simpa using hp)] at hm
    cases hm

/-- Any route `Serve` mounts is one of the two branch routes. -/
theorem serveRoutes_mem (c : WebConfig) (d : FileSystem) (f : Request → Response)
    (rt : RouteMatcher) (hmem : rt ∈ serveRoutes c d f) :
    rt = uiRoute d ∨ rt = apiRoute c f := by
  simp only [serveRoutes] at hmem
  rcases List.mem_append.1 hmem with hm | hm
  · left
    cases hcw : c.StartWebUI <;> rw [hcw] at hm <;> simp_all
  · right
    cases hcr : c.StartRestApi <;> rw [hcr] at hm <;> simp_all

/-- A handler matched by the base router emits no log lines itself (all
logging comes from the `Logger` middleware wrapped around it), and the match
leaves the shared flag clear, so the middleware chain is applied. -/
theorem serveMatched_handler_logs (c : WebConfig) (d : FileSystem)
    (f : Request → Response) (r : Request) (h : Handler) (flag : Bool)
    (hm : routerMatchList (serveRoutes c d f) r false = (some h, flag)) :
    (h r).logs = [] ∧ flag = false := by
  obtain ⟨rt, hmem, acc1, hrt⟩ := routerMatchList_matched _ r false h flag hm
  rcases serveRoutes_mem c d f rt hmem with rfl | rfl
  · obtain ⟨rfl, rfl⟩ := uiRoute_matched_inv d r acc1 h flag hrt
    exact ⟨uiBranchHandler_logs d r, rfl⟩
  · obtain ⟨rfl, rfl⟩ := apiRoute_matched_inv c f r acc1 h flag hrt
    exact ⟨rfl, rfl⟩

/-! ### Claim theorems -/

/-- C1: exactly the enabled branches are reachable: with `StartWebUI = false`
every (clean-path) request under `/ui/` gets the standard not-found response
— whatever the disk contents — and with `StartRestApi = false` every request
under `/api/` gets it; a disabled branch matches nothing and nothing falls
through to the other branch (the response is the default 404 with no log,
independent of `uiDisk` and `apiF`). -/
theorem claim1_disabled_branch_unreachable (c : WebConfig) (d : FileSystem)
    (f : Request → Response) (r : Request) (hclean : cleanPath r.path = r.path) :
    (c.StartWebUI = false → strStarts r.path "/ui/" = true →
       (Serve c d f).handler r = ⟨notFoundResp, []⟩) ∧
    (c.StartRestApi = false → strStarts r.path "/api/" = true →
       (Serve c d f).handler r = ⟨notFoundResp, []⟩) := by
  constructor
  · intro hw hp
    have hapi : strStarts r.path "/api/" = false := strStarts_ui_not_api r.path hp
    rw [serveHandler_eval c d f r hclean]
    cases hcr : c.StartRestApi <;>
      simp [serveMatchOutcome, muxMatch, serveRoutes, routerMatchList, hw, hcr,
        apiRoute_noMatch c f r false hapi]
  · intro hr hp
    have hui : strStarts r.path "/ui/" = false := strStarts_api_not_ui r.path hp
    rw [serveHandler_eval c d f r hclean]
    cases hcw : c.StartWebUI <;>
      simp [serveMatchOutcome, muxMatch, serveRoutes, routerMatchList, hr, hcw,
        uiRoute_noMatch d r false hui]

/-- C4 counterexample: with both branches mounted, `POST /ui/index.html` —
method outside the UI branch's GET-only allow-list — is answered NOT-FOUND,
not method-not-allowed: the UI branch records the mismatch, but the API
route's method matcher `{GET, POST, DELETE, OPTIONS}` accepts POST and
clears the record (gorilla/mux v1.8.1 matcher loop) before its own `/api/`
prefix fails, so the request falls through to the default 404. -/
theorem claim4_fallthrough_counterexample :
    (Serve ⟨8080, "", "http://localhost:8001", true, true⟩ (fun _ => none)
        (fun _ => ⟨200, "", ""⟩)).handler
        ⟨"POST", "/ui/index.html", "/ui/index.html"⟩ = ⟨notFoundResp, []⟩ ∧
    notFoundResp ≠ methodNotAllowedResp := by
  constructor <;> decide

/-- C4 (amended): method handling on a mounted prefix.  A request under
`/ui/` with a non-GET method is answered method-not-allowed UNLESS the REST
API branch is also mounted and the method is in its `{GET, POST, DELETE,
OPTIONS}` list — then the API route's matching method matcher clears the
recorded mismatch and the router answers not-found instead.  A request under
`/api/` (branch mounted) with a method outside that list is always answered
method-not-allowed: no later route exists to clear the record. -/
theorem claim4_method_mismatch_amended (c : WebConfig) (d : FileSystem)
    (f : Request → Response) (r : Request) (hclean : cleanPath r.path = r.path) :
    (c.StartWebUI = true → strStarts r.path "/ui/" = true → r.method ≠ "GET" →
       ((c.StartRestApi = true ∧
           r.method ∈ (["GET", "POST", "DELETE", "OPTIONS"] : List String)) →
          (Serve c d f).handler r = ⟨notFoundResp, []⟩) ∧
       (¬ (c.StartRestApi = true ∧
           r.method ∈ (["GET", "POST", "DELETE", "OPTIONS"] : List String)) →
          (Serve c d f).handler r = ⟨methodNotAllowedResp, []⟩)) ∧
    (c.StartRestApi = true → strStarts r.path "/api/" = true →
       r.method ∉ (["GET", "POST", "DELETE", "OPTIONS"] : List String) →
       (Serve c d f).handler r = ⟨methodNotAllowedResp, []⟩) := by
  constructor
  · intro hw hp hm
    have hapi : strStarts r.path "/api/" = false := strStarts_ui_not_api r.path hp
    have hui : uiRoute d r false = (none, true) := by
      rw [uiRoute_eval d r false hp, if_neg hm]
    constructor
    · rintro ⟨hcr, hmem⟩
      rw [serveHandler_eval c d f r hclean]
      simp [serveMatchOutcome, muxMatch, serveRoutes, routerMatchList, hw, hcr, hui,
        apiRoute_noMatch c f r true hapi, hmem]
    · intro hn
      rw [serveHandler_eval c d f r hclean]
      cases hcr : c.StartRestApi with
      | false =>
        simp [serveMatchOutcome, muxMatch, serveRoutes, routerMatchList, hw, hcr, hui]
      | true =>
        have hmem : r.method ∉ (["GET", "POST", "DELETE", "OPTIONS"] : List String) :=
          fun hmm => hn ⟨hcr, hmm⟩
        simp [serveMatchOutcome, muxMatch, serveRoutes, routerMatchList, hw, hcr, hui,
          apiRoute_noMatch c f r true hapi, hmem]
  · intro hr hp hm
    have hui : strStarts r.path "/ui/" = false := strStarts_api_not_ui r.path hp
    rw [serveHandler_eval c d f r hclean]
    have hapi : apiRoute c f r false = (none, true) := by
      rw [apiRoute_eval c f r false hp, if_neg hm]
    cases hcw : c.StartWebUI <;>
      simp [serveMatchOutcome, muxMatch, serveRoutes, routerMatchList, hr, hcw, hapi,
        uiRoute_noMatch d r false hui]

/-- C10: with the REST API branch mounted, a PUT under `/api/` is answered
method-not-allowed — PUT is missing from the branch's method matcher — so no
PUT request reaches the registered API handlers (the response is a constant,
independent of `apiF`), even though the CORS policy lists PUT among its
allowed methods. -/
theorem claim10_put_api_rejected (c : WebConfig) (d : FileSystem)
    (f : Request → Response) (r : Request) (hclean : cleanPath r.path = r.path)
    (hp : strStarts r.path "/api/" = true) (hm : r.method = "PUT")
    (hr : c.StartRestApi = true) :
    (Serve c d f).handler r = ⟨methodNotAllowedResp, []⟩ ∧
    "PUT" ∈ (Serve c d f).cors.allowedMethods := by
  constructor
  · have hui : strStarts r.path "/ui/" = false := strStarts_api_not_ui r.path hp
    rw [serveHandler_eval c d f r hclean]
    have hapi : apiRoute c f r false = (none, true) := by
      rw [apiRoute_eval c f r false hp, if_neg (by rw [hm]; decide)]
    cases hcw : c.StartWebUI <;>
      simp [serveMatchOutcome, muxMatch, serveRoutes, routerMatchList, hr, hcw, hapi,
        uiRoute_noMatch d r false hui]
  · simp [Serve, CorsNew]

/-- C2 (amended): the logging contract of the server built by `Serve`.  A
request the router matches is served by the matched branch handler wrapped in
`Logger` and produces exactly one log line, carrying the request's method and
URI and emitted after the handler completed (it is the last element of the
emitted list); a request no route matches — answered by the default
not-found / method-not-allowed handlers — produces no log line, because
gorilla/mux applies `Use` middleware only on a successful match. -/
theorem claim2_per_match_logging (c : WebConfig) (d : FileSystem)
    (f : Request → Response) (r : Request) (hclean : cleanPath r.path = r.path) :
    ((serveMatchOutcome c d f r).isMatched = true →
       ((Serve c d f).handler r).logs = [⟨r.method, r.requestURI⟩]) ∧
    ((serveMatchOutcome c d f r).isMatched = false →
       ((Serve c d f).handler r).logs = []) := by
  rw [serveHandler_eval c d f r hclean]
  rcases hrl : routerMatchList (serveRoutes c d f) r false with ⟨oh, flag⟩
  cases oh with
  | some h =>
    obtain ⟨hlogs, rfl⟩ := serveMatched_handler_logs c d f r h flag hrl
    have hout : serveMatchOutcome c d f r = .matched (Logger h) := by
      simp [serveMatchOutcome, muxMatch, hrl]
    rw [hout]
    constructor
    · intro _
      simp [Logger, hlogs]
    · intro hb
      simp [MatchOutcome.isMatched] at hb
  | none =>
    cases flag with
    | true =>
      have hout : serveMatchOutcome c d f r = .methodMismatch := by
        simp [serveMatchOutcome, muxMatch, hrl]
      rw [hout]
      exact ⟨fun hb => by simp [MatchOutcome.isMatched] at hb, fun _ => rfl⟩
    | false =>
      have hout : serveMatchOutcome c d f r = .noMatch := by
        simp [serveMatchOutcome, muxMatch, hrl]
      rw [hout]
      exact ⟨fun hb => by simp [MatchOutcome.isMatched] at hb, fun _ => rfl⟩

/-- C2 counterexample: a request matching no mounted route (here a GET for
`/nope` on a default configuration) is answered by the default not-found
handler with NO log line — not the one-per-request line the claim promises
for every request. -/
theorem claim2_log_counterexample :
    (Serve ⟨8080, "", "http://localhost:8001", true, true⟩ (fun _ => none)
        (fun _ => ⟨200, "", ""⟩)).handler ⟨"GET", "/nope", "/nope"⟩
      = ⟨notFoundResp, []⟩ := by
  decide

/-- C3: the access policy `Serve` hands to `cors.New` permits exactly the
configured front-end origin, exactly the methods GET, POST, OPTIONS, DELETE,
PUT, allows credentialed requests, and depends on nothing but
`c.FrontEndServer`. -/
theorem claim3_cors_policy (c : WebConfig) (d : FileSystem) (f : Request → Response) :
    (Serve c d f).cors.allowedOrigins = [c.FrontEndServer] ∧
    (∀ m : String, m ∈ (Serve c d f).cors.allowedMethods ↔
       m = "GET" ∨ m = "POST" ∨ m = "OPTIONS" ∨ m = "DELETE" ∨ m = "PUT") ∧
    (Serve c d f).cors.allowCredentials = true ∧
    (∀ (c' : WebConfig) (d' : FileSystem) (f' : Request → Response),
       c.FrontEndServer = c'.FrontEndServer →
       (Serve c d f).cors = (Serve c' d' f').cors) := by
  refine ⟨rfl, ?_, rfl, ?_⟩
  · intro m
    simp [Serve, CorsNew]
  · intro c' d' f' h
    simp [Serve, CorsNew, h]

/-- C7 counterexample: with both branches mounted and a file stored at the UI
root, `GET /ui/` is served by the UI branch (200) while `GET /ui` — the same
route point without its trailing slash — matches nothing and is answered
not-found, with no redirect between the two: the trailing-slash variants are
not routed equivalently. -/
theorem claim7_bare_prefix_counterexample :
    ((Serve ⟨8080, "", "http://localhost:8001", true, true⟩
        (fun p => if p = "" then some "INDEX" else none)
        (fun _ => ⟨200, "", ""⟩)).handler ⟨"GET", "/ui/", "/ui/"⟩).response.status = 200 ∧
    ((Serve ⟨8080, "", "http://localhost:8001", true, true⟩
        (fun p => if p = "" then some "INDEX" else none)
        (fun _ => ⟨200, "", ""⟩)).handler ⟨"GET", "/ui", "/ui"⟩).response
      = notFoundResp := by
  constructor <;> decide

/-- C7 (amended): trailing-slash handling of the mounted branches.  For paths
strictly below a mount prefix the two slash variants are routed equivalently:
a prefix match survives appending a slash, and every clean GET path under
`/ui/` (resp. allowed-method path under `/api/`) is dispatched to the same
branch handler wrapped in `Logger`.  At the mount point itself there is no
normalization — `StrictSlash(true)` is ignored for `PathPrefix` routes — so
the bare `/ui` and `/api` (no trailing slash) match neither branch and fall
to the default not-found handler under every configuration. -/
theorem claim7_trailing_slash (c : WebConfig) (d : FileSystem) (f : Request → Response) :
    (∀ p : String, strStarts p "/ui/" = true → strStarts (p ++ "/") "/ui/" = true) ∧
    (∀ p : String, strStarts p "/api/" = true → strStarts (p ++ "/") "/api/" = true) ∧
    (∀ r : Request, cleanPath r.path = r.path → c.StartWebUI = true →
       r.method = "GET" → strStarts r.path "/ui/" = true →
       (Serve c d f).handler r = Logger (uiBranchHandler d) r) ∧
    (∀ r : Request, cleanPath r.path = r.path → c.StartRestApi = true →
       r.method ∈ (["GET", "POST", "DELETE", "OPTIONS"] : List String) →
       strStarts r.path "/api/" = true →
       (Serve c d f).handler r = Logger (corsHandler (CorsNew c) (pureHandler f)) r) ∧
    (∀ u : String, (Serve c d f).handler ⟨"GET", "/ui", u⟩ = ⟨notFoundResp, []⟩) ∧
    (∀ u : String, (Serve c d f).handler ⟨"GET", "/api", u⟩ = ⟨notFoundResp, []⟩) := by
  refine ⟨fun p hp => strStarts_append_slash p "/ui/" hp,
    fun p hp => strStarts_append_slash p "/api/" hp, ?_, ?_, ?_, ?_⟩
  · intro r hclean hw hm hp
    rw [serveHandler_eval c d f r hclean]
    have hui : uiRoute d r false = (some (uiBranchHandler d), false) := by
      rw [uiRoute_eval d r false hp, if_pos hm]
    cases hcr : c.StartRestApi <;>
      simp [serveMatchOutcome, muxMatch, serveRoutes, routerMatchList, hw, hcr, hui]
  · intro r hclean hr hm hp
    rw [serveHandler_eval c d f r hclean]
    have hui : strStarts r.path "/ui/" = false := strStarts_api_not_ui r.path hp
    have hapi : apiRoute c f r false
        = (some (corsHandler (CorsNew c) (pureHandler f)), false) := by
      rw [apiRoute_eval c f r false hp, if_pos hm]
    cases hcw : c.StartWebUI <;>
      simp [serveMatchOutcome, muxMatch, serveRoutes, routerMatchList, hr, hcw, hapi,
        uiRoute_noMatch d r false hui]
  · intro u
    have hclean : cleanPath "/ui" = "/ui" := by decide
    rw [serveHandler_eval c d f ⟨"GET", "/ui", u⟩ hclean]
    have hui : uiRoute d ⟨"GET", "/ui", u⟩ false = (none, false) := by
      rw [uiRoute_noMatch d _ false (show strStarts "/ui" "/ui/" = false by decide)]
      simp
    have hapi : apiRoute c f ⟨"GET", "/ui", u⟩ false = (none, false) := by
      rw [apiRoute_noMatch c f _ false (show strStarts "/ui" "/api/" = false by decide)]
      simp
    cases hcw : c.StartWebUI <;> cases hcr : c.StartRestApi <;>
      simp [serveMatchOutcome, muxMatch, serveRoutes, routerMatchList, hcw, hcr, hui, hapi]
  · intro u
    have hclean : cleanPath "/api" = "/api" := by decide
    rw [serveHandler_eval c d f ⟨"GET", "/api", u⟩ hclean]
    have hui : uiRoute d ⟨"GET", "/api", u⟩ false = (none, false) := by
      rw [uiRoute_noMatch d _ false (show strStarts "/api" "/ui/" = false by decide)]
      simp
    have hapi : apiRoute c f ⟨"GET", "/api", u⟩ false = (none, false) := by
      rw [apiRoute_noMatch c f _ false (show strStarts "/api" "/api/" = false by decide)]
      simp
    cases hcw : c.StartWebUI <;> cases hcr : c.StartRestApi <;>
      simp [serveMatchOutcome, muxMatch, serveRoutes, routerMatchList, hcw, hcr, hui, hapi]

/-- C8: `Serve` binds exactly one listener, on `":" ++ port`, and a listener
failure is fatal: the run's trace contains a single listen step at the
configured address and ends with logging the error and exiting the process —
no retry, no port reassignment. -/
theorem claim8_listener_fatal (c : WebConfig) (d : FileSystem)
    (f : Request → Response) (e : String) :
    (Serve c d f).listenAddr = ":" ++ toString c.LocalPort ∧
    (serveTrace c e).countP ServeStep.isListen = 1 ∧
    ServeStep.listen ((Serve c d f).listenAddr) ∈ serveTrace c e ∧
    (serveTrace c e).getLast? = some (.fatalLogExit e) := by
  refine ⟨rfl, ?_, ?_, ?_⟩ <;>
    cases hw : c.StartWebUI <;> cases hr : c.StartRestApi <;>
      simp [serveTrace, Serve, ServeStep.isListen, hw, hr]

/-- C9: the `!flag.Parsed()` guard in `ParseArgs` is dead code: `flag.Parse`
sets the parsed bit before returning, so whenever it returns the bit is true
and `ParseArgs` never panics — on every command line it either aborts inside
`flag.Parse` or returns a `WebConfig`. -/
theorem claim9_no_panic (a : CmdLineFlags) :
    ParseArgs a ≠ .panicked ∧
    (∀ (parsed : Bool) (cfg : WebConfig),
       flagParse a = .returned parsed cfg → parsed = true) := by
  cases hres : flagResolve a with
  | none =>
    refine ⟨by simp [ParseArgs, flagParse, hres], ?_⟩
    intro parsed cfg h
    simp [flagParse, hres] at h
  | some cfg0 =>
    refine ⟨by simp [ParseArgs, flagParse, hres], ?_⟩
    intro parsed cfg h
    simp only [flagParse, hres, FlagParseOutcome.returned.injEq] at h
    exact h.1.symm

/-- C6: with no flags given, `ParseArgs` returns exactly the documented
defaults: port 8080, empty UI path, origin `http://localhost:8001`, REST API
and Web UI both enabled. -/
theorem claim6_default_config :
    ParseArgs ⟨none, none, none, none, none⟩
      = .ok ⟨8080, "", "http://localhost:8001", true, true⟩ := rfl

/-- C5 (amended): a decimal port p in (0, 65536) on the `port` flag yields a
config whose `LocalPort` is p, and a value `strconv.ParseInt(·, 0, 64)`
rejects makes `flag.Parse` abort the process.  (The positivity part of the
original claim is dropped: `flag.Int` applies no positivity check — see the
counterexample.) -/
theorem claim5_port_parsing :
    (∀ p : Nat, 0 < p → p < 65536 →
       ParseArgs ⟨some (Nat.repr p), none, none, none, none⟩
         = .ok ⟨(p : Int), "", "http://localhost:8001", true, true⟩) ∧
    (∀ s : String, goParseInt s = none →
       ParseArgs ⟨some s, none, none, none, none⟩ = .exitError) := by
  constructor
  · intro p h1 h2
    have hp : goParseInt (Nat.repr p) = some (p : Int) :=
      goParseInt_repr p h1 (lt_trans h2 (by norm_num))
    simp [ParseArgs, flagParse, flagResolve, parseIntFlag, parseBoolFlag, hp]
  · intro s hs
    simp [ParseArgs, flagParse, flagResolve, parseIntFlag, hs]

/-- C5 counterexample: `-3` parses as an integer, so far from aborting,
`ParseArgs` returns a configuration whose `LocalPort` is the non-positive
`-3` — refuting "ParseArgs never returns a configuration with a non-positive
port". -/
theorem claim5_nonpositive_counterexample :
    ParseArgs ⟨some "-3", none, none, none, none⟩
      = .ok ⟨-3, "", "http://localhost:8001", true, true⟩ ∧ (-3 : Int) ≤ 0 := by
  constructor
  · decide
  · decide

/-! ### Concrete instantiations of the hypotheses of the theorems above -/

/-- A sample UI asset directory with one file. -/
def sampleDisk : FileSystem := fun p => if p = "index.html" then some "<html>" else none

/-- A sample externally registered API responder. -/
def sampleApi : Request → Response := fun _ => ⟨200, "api", ""⟩

/-- A sample configuration with both branches enabled. -/
def sampleConfig : WebConfig := ⟨8080, "dist", "http://localhost:8001", true, true⟩

/-- A sample configuration with both branches disabled. -/
def sampleConfigOff : WebConfig := ⟨9090, "", "http://localhost:8001", false, false⟩

theorem claim1_disabled_branch_unreachable_witness :
    (Serve sampleConfigOff sampleDisk sampleApi).handler
        ⟨"GET", "/ui/index.html", "/ui/index.html"⟩ = ⟨notFoundResp, []⟩ ∧
    (Serve sampleConfigOff sampleDisk sampleApi).handler
        ⟨"POST", "/api/run", "/api/run"⟩ = ⟨notFoundResp, []⟩ :=
  ⟨(claim1_disabled_branch_unreachable sampleConfigOff sampleDisk sampleApi
      ⟨"GET", "/ui/index.html", "/ui/index.html"⟩ (by decide)).1 rfl (by decide),
   (claim1_disabled_branch_unreachable sampleConfigOff sampleDisk sampleApi
      ⟨"POST", "/api/run", "/api/run"⟩ (by decide)).2 rfl (by decide)⟩

theorem claim2_per_match_logging_witness :
    ((Serve sampleConfig sampleDisk sampleApi).handler
        ⟨"GET", "/api/run", "/api/run"⟩).logs = [⟨"GET", "/api/run"⟩] ∧
    ((Serve sampleConfig sampleDisk sampleApi).handler
        ⟨"GET", "/nowhere", "/nowhere"⟩).logs = [] :=
  ⟨(claim2_per_match_logging sampleConfig sampleDisk sampleApi
      ⟨"GET", "/api/run", "/api/run"⟩ (by decide)).1 (by decide),
   (claim2_per_match_logging sampleConfig sampleDisk sampleApi
      ⟨"GET", "/nowhere", "/nowhere"⟩ (by decide)).2 (by decide)⟩

theorem claim3_cors_policy_witness :
    (Serve sampleConfig sampleDisk sampleApi).cors.allowedOrigins
      = ["http://localhost:8001"] ∧
    "PUT" ∈ (Serve sampleConfig sampleDisk sampleApi).cors.allowedMethods ∧
    (Serve sampleConfig sampleDisk sampleApi).cors.allowCredentials = true ∧
    (Serve sampleConfig sampleDisk sampleApi).cors
      = (Serve ⟨1234, "", "http://localhost:8001", false, false⟩ sampleDisk sampleApi).cors := by
  obtain ⟨h1, h2, h3, h4⟩ := claim3_cors_policy sampleConfig sampleDisk sampleApi
  exact ⟨h1, (h2 "PUT").2 (by tauto), h3,
    h4 ⟨1234, "", "http://localhost:8001", false, false⟩ sampleDisk sampleApi rfl⟩

theorem claim4_method_mismatch_amended_witness :
    (Serve sampleConfig sampleDisk sampleApi).handler
        ⟨"POST", "/ui/index.html", "/ui/index.html"⟩ = ⟨notFoundResp, []⟩ ∧
    (Serve sampleConfig sampleDisk sampleApi).handler
        ⟨"PUT", "/ui/index.html", "/ui/index.html"⟩ = ⟨methodNotAllowedResp, []⟩ ∧
    (Serve sampleConfig sampleDisk sampleApi).handler
        ⟨"PATCH", "/api/run", "/api/run"⟩ = ⟨methodNotAllowedResp, []⟩ :=
  ⟨((claim4_method_mismatch_amended sampleConfig sampleDisk sampleApi
      ⟨"POST", "/ui/index.html", "/ui/index.html"⟩ (by decide)).1 rfl (by decide)
      (by decide)).1 ⟨rfl, by decide⟩,
   ((claim4_method_mismatch_amended sampleConfig sampleDisk sampleApi
      ⟨"PUT", "/ui/index.html", "/ui/index.html"⟩ (by decide)).1 rfl (by decide)
      (by decide)).2 (by decide),
   (claim4_method_mismatch_amended sampleConfig sampleDisk sampleApi
      ⟨"PATCH", "/api/run", "/api/run"⟩ (by decide)).2 rfl (by decide) (by decide)⟩

theorem claim5_port_parsing_witness :
    ParseArgs ⟨some (Nat.repr 3000), none, none, none, none⟩
      = .ok ⟨3000, "", "http://localhost:8001", true, true⟩ ∧
    ParseArgs ⟨some "8o8o", none, none, none, none⟩ = .exitError :=
  ⟨claim5_port_parsing.1 3000 (by norm_num) (by norm_num),
   claim5_port_parsing.2 "8o8o" (by decide)⟩

theorem claim7_trailing_slash_witness :
    strStarts ("/ui/x" ++ "/") "/ui/" = true ∧
    (Serve sampleConfig sampleDisk sampleApi).handler ⟨"GET", "/ui/x", "/ui/x"⟩
      = Logger (uiBranchHandler sampleDisk) ⟨"GET", "/ui/x", "/ui/x"⟩ ∧
    (Serve sampleConfig sampleDisk sampleApi).handler ⟨"POST", "/api/x", "/api/x"⟩
      = Logger (corsHandler (CorsNew sampleConfig) (pureHandler sampleApi))
          ⟨"POST", "/api/x", "/api/x"⟩ ∧
    (Serve sampleConfig sampleDisk sampleApi).handler ⟨"GET", "/ui", "/ui"⟩
      = ⟨notFoundResp, []⟩ ∧
    (Serve sampleConfig sampleDisk sampleApi).handler ⟨"GET", "/api", "/api"⟩
      = ⟨notFoundResp, []⟩ := by
  obtain ⟨w1, _, w3, w4, w5, w6⟩ :=
    claim7_trailing_slash sampleConfig sampleDisk sampleApi
  exact ⟨w1 "/ui/x" (by decide),
    w3 ⟨"GET", "/ui/x", "/ui/x"⟩ (by decide) rfl rfl (by decide),
    w4 ⟨"POST", "/api/x", "/api/x"⟩ (by decide) rfl (by decide) (by decide),
    w5 "/ui", w6 "/api"⟩

theorem claim9_no_panic_witness :
    ParseArgs ⟨none, none, none, none, none⟩ ≠ .panicked ∧
    ParseArgs ⟨some "bogus", none, none, none, none⟩ ≠ .panicked :=
  ⟨(claim9_no_panic ⟨none, none, none, none, none⟩).1,
   (claim9_no_panic ⟨some "bogus", none, none, none, none⟩).1⟩

theorem claim10_put_api_rejected_witness :
    (Serve sampleConfig sampleDisk sampleApi).handler
        ⟨"PUT", "/api/sessions", "/api/sessions"⟩ = ⟨methodNotAllowedResp, []⟩ ∧
    "PUT" ∈ (Serve sampleConfig sampleDisk sampleApi).cors.allowedMethods :=
  claim10_put_api_rejected sampleConfig sampleDisk sampleApi
    ⟨"PUT", "/api/sessions", "/api/sessions"⟩ (by decide) (by decide) rfl rfl
